import Mathlib

/-!
Verification of the pan/zoom view-transform engine of `src/widgets.rs`
(the `ZoomImage` widget). The `f64` arithmetic of the source is embedded
over exact rationals (`ℚ`): every operation used by the engine
(`+ - * / min max abs`) is exact on the reals, so the rational model is
the real-number semantics of the code. Definitions mirror the Rust
functions line by line and keep their names.
-/

namespace ImageViewer

/-- 2D vector (kurbo `Vec2`): an `{x, y}` pair. -/
structure Vec2 where
  x : ℚ
  y : ℚ
  deriving DecidableEq

/-- 2D point (kurbo `Point`): an `{x, y}` pair. -/
structure Point where
  x : ℚ
  y : ℚ
  deriving DecidableEq

/-- Rectangular size (druid `Size`): width/height pair. -/
structure Size where
  width : ℚ
  height : ℚ
  deriving DecidableEq

instance : Add Vec2 := ⟨fun a b => ⟨a.x + b.x, a.y + b.y⟩⟩

instance : Sub Vec2 := ⟨fun a b => ⟨a.x - b.x, a.y - b.y⟩⟩

theorem Vec2.add_def (a b : Vec2) : a + b = ⟨a.x + b.x, a.y + b.y⟩ := rfl

theorem Vec2.sub_def (a b : Vec2) : a - b = ⟨a.x - b.x, a.y - b.y⟩ := rfl

/-- kurbo `Vec2 * f64` (componentwise scalar multiplication). -/
def Vec2.smul (v : Vec2) (c : ℚ) : Vec2 := ⟨v.x * c, v.y * c⟩

/-- kurbo `Vec2::hypot2`: squared length. -/
def Vec2.hypot2 (v : Vec2) : ℚ := v.x * v.x + v.y * v.y

/-- kurbo `Point::to_vec2`. -/
def Point.to_vec2 (p : Point) : Vec2 := ⟨p.x, p.y⟩

/-- kurbo `Vec2::to_point`. -/
def Vec2.to_point (v : Vec2) : Point := ⟨v.x, v.y⟩

/-- kurbo `Point - Point = Vec2`. -/
def Point.sub (p q : Point) : Vec2 := ⟨p.x - q.x, p.y - q.y⟩

/-- kurbo `TranslateScale`: uniform scale followed by translation,
mapping a point `p` to `p * scale + translation`. -/
structure TranslateScale where
  translation : Vec2
  scale : ℚ
  deriving DecidableEq

/-- Default transform: zero offset, scale 1 (`TranslateScale::default`). -/
def TranslateScale.default : TranslateScale := ⟨⟨0, 0⟩, 1⟩

/-- kurbo `TranslateScale::as_tuple`. -/
def TranslateScale.as_tuple (t : TranslateScale) : Vec2 × ℚ := (t.translation, t.scale)

/-- kurbo `TranslateScale::inverse`: `(translation * -scale⁻¹, scale⁻¹)`. -/
def TranslateScale.inverse (t : TranslateScale) : TranslateScale :=
  ⟨t.translation.smul (-t.scale⁻¹), t.scale⁻¹⟩

/-- kurbo `TranslateScale * Point`: `(scale * p.to_vec2()).to_point() + translation`. -/
def TranslateScale.mulPoint (t : TranslateScale) (p : Point) : Point :=
  ⟨t.scale * p.x + t.translation.x, t.scale * p.y + t.translation.y⟩

/-- `MIN_SCALE` constant of widgets.rs (0.2, i.e. 20%). -/
def MIN_SCALE : ℚ := 1 / 5

/-- `MAX_SCALE` constant of widgets.rs (15.0, i.e. 1500%). -/
def MAX_SCALE : ℚ := 15

/-- `TARGET_ANIM_LEN` constant of widgets.rs (160 ms). -/
def TARGET_ANIM_LEN : ℚ := 160

/-- `EPSILON` constant of `trans_approx_eq` (1e-6). -/
def EPSILON : ℚ := 1 / 1000000

/-- `trans_approx_eq` of widgets.rs: approximate equality of transforms,
`(t2 - t1).hypot2() < EPSILON^2 && (s1 - s2).abs() < EPSILON`. -/
def trans_approx_eq (t1 t2 : TranslateScale) : Bool :=
  decide ((t2.translation - t1.translation).hypot2 < EPSILON ^ 2) &&
    decide (|t1.scale - t2.scale| < EPSILON)

/-- Modelled from the spec: `easings::cubic_out`, the cubic ease-out
`ease(t) = 1 - (1-t)^3`, whose source (the `easings` dependency) is not
under `src/`. -/
def cubic_out (t : ℚ) : ℚ := 1 - (1 - t) ^ 3

/-- `AnimState` of widgets.rs: an in-flight animation. `from` is a Lean
keyword, so the starting transform is called `from'`. -/
structure AnimState where
  /-- The current position in the animation. -/
  t : ℚ
  /-- The starting transform. -/
  from' : TranslateScale
  /-- The target transform. -/
  to' : TranslateScale
  /-- The speed at which to animate (time to complete in ms). -/
  len : ℚ
  deriving DecidableEq

/-- `AnimState::new`: `t = 1` immediately when `from ≈ to`, else `t = 0`. -/
def AnimState.new (from' to' : TranslateScale) (len : ℚ) : AnimState :=
  if trans_approx_eq from' to' then ⟨1, from', to', len⟩ else ⟨0, from', to', len⟩

/-- `AnimState::current`: interpolate offset and scale by `cubic_out t`. -/
def AnimState.current (a : AnimState) : TranslateScale :=
  let t := cubic_out a.t
  ⟨⟨a.from'.translation.x + (a.to'.translation.x - a.from'.translation.x) * t,
    a.from'.translation.y + (a.to'.translation.y - a.from'.translation.y) * t⟩,
    a.from'.scale + (a.to'.scale - a.from'.scale) * t⟩

/-- `AnimState::update`: `t = min(t + time / len, 1)`. -/
def AnimState.update (a : AnimState) (time : ℚ) : AnimState :=
  { a with t := min (a.t + time / a.len) 1 }

/-- `AnimState::is_complete`: `t >= 1`. -/
def AnimState.is_complete (a : AnimState) : Bool := decide (a.t ≥ 1)

/-- `Drag` of widgets.rs: a drag session. -/
structure Drag where
  /-- The mouse position at the start of the scroll. -/
  start : Point
  /-- A temporary offset, allowed to go outside allowed values. -/
  diff : Vec2
  deriving DecidableEq

/-- `Mode` of widgets.rs. -/
inductive Mode where
  | normal
  | drag (d : Drag)
  | anim (a : AnimState)
  deriving DecidableEq

/-- `ZoomImage` widget state: the committed transform and the mode.
(The cached Piet image is rendering-only and omitted.) -/
structure ZoomImage where
  trans : TranslateScale
  mode : Mode
  fresh : Bool
  deriving DecidableEq

/-- `constrain_scale` of widgets.rs: clamp the scale into
`[min(min(w/iw, h/ih), MIN_SCALE), MAX_SCALE]` as
`scale.min(MAX_SCALE).max(min_scale)`. -/
def constrain_scale (img_size widget_size : Size) (scale : ℚ) : ℚ :=
  let min_x_scale := widget_size.width / img_size.width
  let min_y_scale := widget_size.height / img_size.height
  let min_scale := min (min min_x_scale min_y_scale) MIN_SCALE
  max (min scale MAX_SCALE) min_scale

/-- `constrain_offset` of widgets.rs: per axis, center when the scaled
content is smaller than the widget, else clamp the offset into
`[widget - img*scale, 0]`. -/
def constrain_offset (img_size widget_size : Size) (scale : ℚ) (offset : Vec2) : Vec2 :=
  let tx := offset.x
  let ty := offset.y
  let diff_x := widget_size.width - img_size.width * scale
  let tx := if diff_x > 0 then diff_x * (1 / 2) else max (min tx 0) diff_x
  let diff_y := widget_size.height - img_size.height * scale
  let ty := if diff_y > 0 then diff_y * (1 / 2) else max (min ty 0) diff_y
  ⟨tx, ty⟩

/-- `constrain_transform` of widgets.rs: constrain the scale first, then
the offset at the constrained scale. -/
def constrain_transform (img_size widget_size : Size) (trans : TranslateScale) :
    TranslateScale :=
  let offset := trans.translation
  let scale := trans.scale
  let scale := constrain_scale img_size widget_size scale
  let offset := constrain_offset img_size widget_size scale offset
  ⟨offset, scale⟩

/-- `ZoomImage::zoom_to`. The Rust function asserts
`0 < scale && scale.is_finite()` and that `origin` is finite, panicking
before any mutation otherwise; the panic is modelled as `none`. (Every
rational is finite, so only the sign test remains.) -/
def ZoomImage.zoom_to (self : ZoomImage) (img_size widget_size : Size) (scale : ℚ)
    (origin : Point) : Option ZoomImage :=
  if ¬(0 < scale) then none
  else
    let old_trans := self.trans
    let origin_img := old_trans.inverse.mulPoint origin
    let scale := constrain_scale img_size widget_size scale
    let origin_scaled := origin_img.to_vec2.smul scale
    let diff := origin.to_vec2 - origin_scaled
    let trans1 : TranslateScale := ⟨diff, scale⟩
    let trans2 := constrain_transform img_size widget_size trans1
    some <|
      if trans_approx_eq trans2 old_trans then { self with trans := trans2 }
      else
        match self.mode with
        | .normal =>
            { self with trans := trans2,
                        mode := .anim (AnimState.new old_trans trans2 TARGET_ANIM_LEN) }
        | .anim anim =>
            { self with trans := trans2,
                        mode := .anim (AnimState.new anim.current trans2 TARGET_ANIM_LEN) }
        | .drag _ => { self with trans := trans2 }

/-- `ZoomImage::zoom`: relative zoom, `zoom_to` at `current_scale * scale_factor`. -/
def ZoomImage.zoom (self : ZoomImage) (img_size widget_size : Size) (scale_factor : ℚ)
    (origin : Point) : Option ZoomImage :=
  self.zoom_to img_size widget_size (self.trans.scale * scale_factor) origin

/-- `ZoomImage::draw_transform`: the effective transform to render. -/
def ZoomImage.draw_transform (self : ZoomImage) : TranslateScale :=
  match self.mode with
  | .normal => self.trans
  | .drag d => ⟨self.trans.translation + d.diff, self.trans.scale⟩
  | .anim anim_state => anim_state.current

/-- `ZoomImage::drag_start`: switch to drag state anchored at the pointer
with zero delta. -/
def ZoomImage.drag_start (self : ZoomImage) (window_pos : Point) : ZoomImage :=
  { self with mode := .drag ⟨window_pos, ⟨0, 0⟩⟩ }

/-- The `Event::MouseDown` arm of `ZoomImage::event`: start a drag unless
one is already in progress. -/
def ZoomImage.mouse_down (self : ZoomImage) (window_pos : Point) : ZoomImage :=
  match self.mode with
  | .drag _ => self
  | _ => self.drag_start window_pos

/-- `ZoomImage::drag_stop`: commit the dragged transform, constrained;
bounce-back animation when the constrained result differs beyond
tolerance. Returns the new state and whether an animation frame is
needed. -/
def ZoomImage.drag_stop (self : ZoomImage) (img_size widget_size : Size) :
    ZoomImage × Bool :=
  match self.mode with
  | .drag drag =>
      let current_trans : TranslateScale :=
        ⟨self.trans.translation + drag.diff, self.trans.scale⟩
      let trans2 := constrain_transform img_size widget_size current_trans
      if trans_approx_eq trans2 current_trans then
        ({ self with trans := trans2, mode := .normal }, false)
      else
        ({ self with trans := trans2,
                     mode := .anim (AnimState.new current_trans trans2 TARGET_ANIM_LEN) },
          true)
  | _ => (self, false)

/-- The `Event::AnimFrame` arm of `ZoomImage::event` (time already scaled
to ms): advance the animation; on completion return to normal mode. -/
def ZoomImage.anim_frame (self : ZoomImage) (time : ℚ) : ZoomImage :=
  match self.mode with
  | .anim anim =>
      let anim := anim.update time
      if anim.is_complete then { self with mode := .normal }
      else { self with mode := .anim anim }
  | _ => self

/-- `ZoomImage::notify_transform`: the payload of the change notification,
the inverse of the committed transform. -/
def ZoomImage.notify_transform (self : ZoomImage) : TranslateScale :=
  self.trans.inverse

/-- `ZoomImage::is_dragging`. -/
def ZoomImage.is_dragging (self : ZoomImage) : Bool :=
  match self.mode with
  | .drag _ => true
  | _ => false

/-- `ZoomImage::is_animating`. -/
def ZoomImage.is_animating (self : ZoomImage) : Bool :=
  match self.mode with
  | .anim _ => true
  | _ => false

/-! ## Helper lemmas -/

/-- Approximate equality is reflexive: the tolerance is strictly positive. -/
theorem trans_approx_eq_refl (t : TranslateScale) : trans_approx_eq t t = true := by
  simp [trans_approx_eq, Vec2.hypot2, Vec2.sub_def, EPSILON]

/-- The `from` field of a freshly built animation is the given start. -/
theorem AnimState.new_from' (f t : TranslateScale) (l : ℚ) : (AnimState.new f t l).from' = f := by
  unfold AnimState.new; split_ifs <;> rfl

/-- The `to` field of a freshly built animation is the given target. -/
theorem AnimState.new_to' (f t : TranslateScale) (l : ℚ) : (AnimState.new f t l).to' = t := by
  unfold AnimState.new; split_ifs <;> rfl

/-- The scale clamp is (exactly) idempotent. -/
theorem constrain_scale_idem (i w : Size) (s : ℚ) :
    constrain_scale i w (constrain_scale i w s) = constrain_scale i w s := by
  simp only [constrain_scale]
  have hlo : min (min (w.width / i.width) (w.height / i.height)) MIN_SCALE ≤ MAX_SCALE :=
    le_trans (min_le_right _ _) (by norm_num [MIN_SCALE, MAX_SCALE])
  rw [min_eq_left (max_le (min_le_right _ _) hlo), max_eq_left (le_max_right _ _)]

/-- One axis of the offset clamp is (exactly) idempotent. -/
theorem constrain_offset_axis_fix (slack r : ℚ) :
    (if slack > 0 then slack * (1 / 2)
     else max (min (if slack > 0 then slack * (1 / 2) else max (min r 0) slack) 0) slack) =
      (if slack > 0 then slack * (1 / 2) else max (min r 0) slack) := by
  split_ifs with h
  · rfl
  · have h1 : max (min r 0) slack ≤ 0 := max_le (min_le_right _ _) (le_of_not_lt h)
    rw [min_eq_left h1, max_eq_left (le_max_right _ _)]

/-- The offset clamp is (exactly) idempotent at a fixed scale. -/
theorem constrain_offset_fix (i w : Size) (sc : ℚ) (off : Vec2) :
    constrain_offset i w sc (constrain_offset i w sc off) = constrain_offset i w sc off := by
  simp only [constrain_offset, Vec2.mk.injEq]
  exact ⟨constrain_offset_axis_fix _ _, constrain_offset_axis_fix _ _⟩

/-- `constrain_transform` is (exactly) idempotent. -/
theorem constrain_transform_fix (i w : Size) (t : TranslateScale) :
    constrain_transform i w (constrain_transform i w t) = constrain_transform i w t := by
  simp only [constrain_transform, constrain_scale_idem, TranslateScale.mk.injEq]
  exact ⟨constrain_offset_fix _ _ _ _, trivial⟩

/-! ## Claims -/

/-- C1: for every positive content size, positive viewport size and requested
scale, `constrain_scale` lies in `[min(fitScale, MIN_SCALE), MAX_SCALE]` with
`fitScale = min(viewportW/contentW, viewportH/contentH)`, and equals the
requested scale clamped to that interval. -/
theorem constrain_scale_clamps (i w : Size) (s : ℚ)
    (hiw : 0 < i.width) (hih : 0 < i.height) (hww : 0 < w.width) (hwh : 0 < w.height) :
    min (min (w.width / i.width) (w.height / i.height)) MIN_SCALE ≤ constrain_scale i w s ∧
    constrain_scale i w s ≤ MAX_SCALE ∧
    constrain_scale i w s =
      min (max s (min (min (w.width / i.width) (w.height / i.height)) MIN_SCALE)) MAX_SCALE := by
  have hlo : min (min (w.width / i.width) (w.height / i.height)) MIN_SCALE ≤ MAX_SCALE :=
    le_trans (min_le_right _ _) (by norm_num [MIN_SCALE, MAX_SCALE])
  unfold constrain_scale
  refine ⟨le_max_right _ _, max_le (min_le_right _ _) hlo, ?_⟩
  rw [max_comm, max_min_distrib_left, max_eq_right hlo,
    max_comm (min (min (w.width / i.width) (w.height / i.height)) MIN_SCALE) s]

/-- C1 witness: content 100×100, viewport 50×50, requested scale 3. -/
theorem constrain_scale_clamps_witness :
    min (min ((50:ℚ) / 100) ((50:ℚ) / 100)) MIN_SCALE ≤ constrain_scale ⟨100, 100⟩ ⟨50, 50⟩ 3 ∧
    constrain_scale ⟨100, 100⟩ ⟨50, 50⟩ 3 ≤ MAX_SCALE ∧
    constrain_scale ⟨100, 100⟩ ⟨50, 50⟩ 3 =
      min (max 3 (min (min ((50:ℚ) / 100) ((50:ℚ) / 100)) MIN_SCALE)) MAX_SCALE :=
  constrain_scale_clamps ⟨100, 100⟩ ⟨50, 50⟩ 3 (by norm_num) (by norm_num) (by norm_num)
    (by norm_num)

/-- C2: `constrain_offset` acts per axis independently: with
`slack = viewportExtent - contentExtent * scale`, when `slack > 0` the result
on that axis is `slack / 2` regardless of the requested offset, otherwise it
is the requested offset clamped to `[slack, 0]`. -/
theorem constrain_offset_per_axis (i w : Size) (sc : ℚ) (off : Vec2)
    (hiw : 0 < i.width) (hih : 0 < i.height) (hww : 0 < w.width) (hwh : 0 < w.height) :
    constrain_offset i w sc off =
      ⟨if 0 < w.width - i.width * sc then (w.width - i.width * sc) / 2
        else min (max off.x (w.width - i.width * sc)) 0,
       if 0 < w.height - i.height * sc then (w.height - i.height * sc) / 2
        else min (max off.y (w.height - i.height * sc)) 0⟩ := by
  simp only [constrain_offset, gt_iff_lt, Vec2.mk.injEq]
  constructor <;> split_ifs with h
  · ring
  · rw [max_min_distrib_right, max_eq_left (le_of_not_lt h), min_comm]
  · ring
  · rw [max_min_distrib_right, max_eq_left (le_of_not_lt h), min_comm]

/-- C2 witness: content 200×100, viewport 100×100 at scale 1/2 — positive
slack on y (centering), zero slack on x (clamping). -/
theorem constrain_offset_per_axis_witness :
    constrain_offset ⟨200, 100⟩ ⟨100, 100⟩ (1/2) ⟨7, -3⟩ =
      ⟨if 0 < (100:ℚ) - 200 * (1/2) then ((100:ℚ) - 200 * (1/2)) / 2
        else min (max 7 ((100:ℚ) - 200 * (1/2))) 0,
       if 0 < (100:ℚ) - 100 * (1/2) then ((100:ℚ) - 100 * (1/2)) / 2
        else min (max (-3) ((100:ℚ) - 100 * (1/2))) 0⟩ :=
  constrain_offset_per_axis ⟨200, 100⟩ ⟨100, 100⟩ (1/2) ⟨7, -3⟩ (by norm_num) (by norm_num)
    (by norm_num) (by norm_num)

/-- C3: `constrain_transform` is idempotent — applying it twice yields the
same result as applying it once, within the tolerance of `trans_approx_eq`
(the model proves exact equality, which implies approximate equality). -/
theorem constrain_transform_idem (i w : Size) (t : TranslateScale)
    (hiw : 0 < i.width) (hih : 0 < i.height) (hww : 0 < w.width) (hwh : 0 < w.height) :
    trans_approx_eq (constrain_transform i w (constrain_transform i w t))
      (constrain_transform i w t) = true := by
  rw [constrain_transform_fix]
  exact trans_approx_eq_refl _

/-- C3 witness: content 200×100, viewport 100×100, transform ((30,-40), 3). -/
theorem constrain_transform_idem_witness :
    trans_approx_eq
      (constrain_transform ⟨200, 100⟩ ⟨100, 100⟩
        (constrain_transform ⟨200, 100⟩ ⟨100, 100⟩ ⟨⟨30, -40⟩, 3⟩))
      (constrain_transform ⟨200, 100⟩ ⟨100, 100⟩ ⟨⟨30, -40⟩, 3⟩) = true :=
  constrain_transform_idem ⟨200, 100⟩ ⟨100, 100⟩ ⟨⟨30, -40⟩, 3⟩ (by norm_num) (by norm_num)
    (by norm_num) (by norm_num)

/-- C4: when a `zoom_to` request arrives while the engine is Animating and
produces a new animation (the constrained target differs from the committed
transform beyond tolerance), the new animation's `from` equals the in-flight
animation's currently interpolated transform `AnimState::current()`. -/
theorem zoom_to_retarget_from_current (s s' : ZoomImage) (i w : Size) (sc : ℚ) (o : Point)
    (a : AnimState) (hmode : s.mode = .anim a)
    (hsome : s.zoom_to i w sc o = some s')
    (hmoved : trans_approx_eq s'.trans s.trans = false) :
    ∃ a', s'.mode = .anim a' ∧ a'.from' = a.current := by
  unfold ZoomImage.zoom_to at hsome
  by_cases h0 : 0 < sc
  · rw [if_neg (not_not_intro h0)] at hsome
    simp only [hmode] at hsome
    set trans2 := constrain_transform i w
      ⟨o.to_vec2 - (s.trans.inverse.mulPoint o).to_vec2.smul (constrain_scale i w sc),
        constrain_scale i w sc⟩ with htrans2
    by_cases happrox : trans_approx_eq trans2 s.trans = true
    · rw [Option.some_inj] at hsome
      rw [if_pos] at hsome
      · subst hsome
        simp only at hmoved
        rw [happrox] at hmoved
        exact absurd hmoved (by simp)
      · exact happrox
    · rw [Option.some_inj, if_neg happrox] at hsome
      subst hsome
      exact ⟨_, rfl, AnimState.new_from' _ _ _⟩
  · rw [if_pos (by exact h0)] at hsome
    exact absurd hsome (by simp)

/-- C4 witness: a mid-flight animation retargeted by a zoom to scale 2. -/
theorem zoom_to_retarget_from_current_witness :
    ∃ a', (⟨⟨⟨0,0⟩,2⟩, .anim ⟨0, ⟨⟨0,0⟩,1⟩, ⟨⟨0,0⟩,2⟩, 160⟩, false⟩ : ZoomImage).mode = .anim a' ∧
      a'.from' = AnimState.current ⟨1/2, ⟨⟨0,0⟩,1⟩, ⟨⟨0,0⟩,1⟩, 160⟩ :=
  zoom_to_retarget_from_current
    ⟨⟨⟨0,0⟩,1⟩, .anim ⟨1/2, ⟨⟨0,0⟩,1⟩, ⟨⟨0,0⟩,1⟩, 160⟩, false⟩
    ⟨⟨⟨0,0⟩,2⟩, .anim ⟨0, ⟨⟨0,0⟩,1⟩, ⟨⟨0,0⟩,2⟩, 160⟩, false⟩
    ⟨100,100⟩ ⟨50,50⟩ 2 ⟨0,0⟩ ⟨1/2, ⟨⟨0,0⟩,1⟩, ⟨⟨0,0⟩,1⟩, 160⟩ rfl
    (by norm_num [ZoomImage.zoom_to, TranslateScale.inverse, TranslateScale.mulPoint,
      Point.to_vec2, Vec2.smul, Vec2.sub_def, constrain_transform, constrain_scale,
      constrain_offset, trans_approx_eq, Vec2.hypot2, EPSILON, MIN_SCALE, MAX_SCALE,
      AnimState.new, AnimState.current, cubic_out, TARGET_ANIM_LEN])
    (by norm_num [trans_approx_eq, Vec2.hypot2, EPSILON, Vec2.sub_def])

/-- C5 counterexample: a drag whose candidate transform is out of bounds by
only `1e-7` is constrained within tolerance, so `drag_stop` enters Idle with
no animation — but it commits the constrained transform, not the candidate
`(committedOffset + d, committedScale)` as the claim states. -/
theorem drag_stop_commits_constrained_cex :
    (ZoomImage.drag_stop ⟨⟨⟨0, 0⟩, 1⟩, .drag ⟨⟨0, 0⟩, ⟨1 / 10000000, 0⟩⟩, false⟩
        ⟨100, 100⟩ ⟨100, 100⟩).2 = false ∧
    (ZoomImage.drag_stop ⟨⟨⟨0, 0⟩, 1⟩, .drag ⟨⟨0, 0⟩, ⟨1 / 10000000, 0⟩⟩, false⟩
        ⟨100, 100⟩ ⟨100, 100⟩).1.mode = .normal ∧
    (ZoomImage.drag_stop ⟨⟨⟨0, 0⟩, 1⟩, .drag ⟨⟨0, 0⟩, ⟨1 / 10000000, 0⟩⟩, false⟩
        ⟨100, 100⟩ ⟨100, 100⟩).1.trans ≠
      ⟨(⟨0, 0⟩ : Vec2) + ⟨1 / 10000000, 0⟩, 1⟩ := by
  norm_num [ZoomImage.drag_stop, constrain_transform, constrain_scale, constrain_offset,
    trans_approx_eq, Vec2.hypot2, EPSILON, Vec2.sub_def, Vec2.add_def, MIN_SCALE, MAX_SCALE,
    TranslateScale.mk.injEq, Vec2.mk.injEq]

/-- C5 (amended): in Dragging mode with delta `d`, `drag_stop` computes the
candidate `(committedOffset + d, committedScale)` and constrains it; when the
constrained result differs from the candidate beyond tolerance it enters
Animating from the candidate to the constrained result and returns true;
otherwise it commits the constrained result (within tolerance of the
candidate) and enters Idle with no animation. With zero delta and an
exactly-constrained committed transform, the committed transform is left
unchanged and the mode becomes Idle. -/
theorem drag_stop_spec (s : ZoomImage) (i w : Size) (d : Drag) (cand cons : TranslateScale)
    (hmode : s.mode = .drag d)
    (hcand : cand = ⟨s.trans.translation + d.diff, s.trans.scale⟩)
    (hcons : cons = constrain_transform i w cand) :
    (trans_approx_eq cons cand = false →
       s.drag_stop i w =
         ({ s with trans := cons,
                   mode := .anim (AnimState.new cand cons TARGET_ANIM_LEN) }, true)) ∧
    (trans_approx_eq cons cand = true →
       s.drag_stop i w = ({ s with trans := cons, mode := .normal }, false)) ∧
    (d.diff = ⟨0, 0⟩ → constrain_transform i w s.trans = s.trans →
       s.drag_stop i w = ({ s with mode := .normal }, false)) := by
  obtain ⟨tr, m, fr⟩ := s
  replace hmode : m = Mode.drag d := hmode
  subst hmode
  subst hcand hcons
  refine ⟨fun h => ?_, fun h => ?_, fun h0 hfix => ?_⟩
  · simp only [ZoomImage.drag_stop, h, Bool.false_eq_true, if_false]
  · simp only [ZoomImage.drag_stop, h, if_true]
  · have hc : (⟨tr.translation + d.diff, tr.scale⟩ : TranslateScale) = tr := by
      simp [h0, Vec2.add_def]
    simp only [ZoomImage.drag_stop, hc]
    simp only at hfix
    rw [hfix, trans_approx_eq_refl]
    simp

/-- C5 witness: a drag 5 units off the left bound bounces back. -/
theorem drag_stop_spec_witness :
    (trans_approx_eq ⟨⟨0, 0⟩, 1⟩ ⟨⟨-5, 0⟩, 1⟩ = false →
       ZoomImage.drag_stop ⟨⟨⟨0, 0⟩, 1⟩, .drag ⟨⟨0, 0⟩, ⟨-5, 0⟩⟩, false⟩ ⟨100, 100⟩ ⟨100, 100⟩ =
         (⟨⟨⟨0, 0⟩, 1⟩,
           .anim (AnimState.new ⟨⟨-5, 0⟩, 1⟩ ⟨⟨0, 0⟩, 1⟩ TARGET_ANIM_LEN), false⟩, true)) ∧
    (trans_approx_eq ⟨⟨0, 0⟩, 1⟩ ⟨⟨-5, 0⟩, 1⟩ = true →
       ZoomImage.drag_stop ⟨⟨⟨0, 0⟩, 1⟩, .drag ⟨⟨0, 0⟩, ⟨-5, 0⟩⟩, false⟩ ⟨100, 100⟩ ⟨100, 100⟩ =
         (⟨⟨⟨0, 0⟩, 1⟩, .normal, false⟩, false)) ∧
    ((⟨⟨0, 0⟩, ⟨-5, 0⟩⟩ : Drag).diff = ⟨0, 0⟩ →
       constrain_transform ⟨100, 100⟩ ⟨100, 100⟩ ⟨⟨0, 0⟩, 1⟩ = ⟨⟨0, 0⟩, 1⟩ →
       ZoomImage.drag_stop ⟨⟨⟨0, 0⟩, 1⟩, .drag ⟨⟨0, 0⟩, ⟨-5, 0⟩⟩, false⟩ ⟨100, 100⟩ ⟨100, 100⟩ =
         (⟨⟨⟨0, 0⟩, 1⟩, .normal, false⟩, false)) :=
  drag_stop_spec ⟨⟨⟨0, 0⟩, 1⟩, .drag ⟨⟨0, 0⟩, ⟨-5, 0⟩⟩, false⟩ ⟨100, 100⟩ ⟨100, 100⟩
    ⟨⟨0, 0⟩, ⟨-5, 0⟩⟩ ⟨⟨-5, 0⟩, 1⟩ ⟨⟨0, 0⟩, 1⟩ rfl
    (by norm_num [Vec2.add_def])
    (by norm_num [constrain_transform, constrain_scale, constrain_offset, MIN_SCALE, MAX_SCALE])

/-- C6 counterexample: while Dragging with delta (5,0), the notification
payload (inverse of the committed transform) differs from the inverse of the
effective `draw_transform`. -/
theorem notify_not_effective_inverse_cex :
    ZoomImage.notify_transform ⟨⟨⟨0, 0⟩, 1⟩, .drag ⟨⟨0, 0⟩, ⟨5, 0⟩⟩, false⟩ ≠
      (ZoomImage.draw_transform ⟨⟨⟨0, 0⟩, 1⟩, .drag ⟨⟨0, 0⟩, ⟨5, 0⟩⟩, false⟩).inverse := by
  norm_num [ZoomImage.notify_transform, ZoomImage.draw_transform, TranslateScale.inverse,
    Vec2.smul, Vec2.add_def, TranslateScale.mk.injEq, Vec2.mk.injEq]

/-- C6 (amended): the change-notification payload is the inverse of the
committed transform in every mode; it coincides with the inverse of the
effective (`draw_transform`) transform when the mode is Idle. -/
theorem notify_is_committed_inverse (s : ZoomImage) :
    s.notify_transform = s.trans.inverse ∧
    (s.mode = .normal → s.notify_transform = s.draw_transform.inverse) := by
  refine ⟨rfl, fun h => ?_⟩
  simp [ZoomImage.notify_transform, ZoomImage.draw_transform, h]

/-- C6 witness: an Idle engine at transform ((3,4), 2). -/
theorem notify_is_committed_inverse_witness :
    (⟨⟨⟨3, 4⟩, 2⟩, .normal, false⟩ : ZoomImage).notify_transform =
      (⟨⟨3, 4⟩, 2⟩ : TranslateScale).inverse ∧
    ((⟨⟨⟨3, 4⟩, 2⟩, .normal, false⟩ : ZoomImage).mode = .normal →
      (⟨⟨⟨3, 4⟩, 2⟩, .normal, false⟩ : ZoomImage).notify_transform =
        (⟨⟨⟨3, 4⟩, 2⟩, .normal, false⟩ : ZoomImage).draw_transform.inverse) :=
  notify_is_committed_inverse ⟨⟨⟨3, 4⟩, 2⟩, .normal, false⟩

/-- C7 counterexample: pointerDown during an animation at progress 0 from
scale 1 to scale 2 yields an effective transform (the committed target, scale
2) that differs beyond tolerance from the cancelled animation's interpolated
transform (scale 1). -/
theorem mouse_down_jump_cex :
    trans_approx_eq
      (ZoomImage.draw_transform
        (ZoomImage.mouse_down ⟨⟨⟨0, 0⟩, 2⟩, .anim ⟨0, ⟨⟨0, 0⟩, 1⟩, ⟨⟨0, 0⟩, 2⟩, 160⟩, false⟩
          ⟨0, 0⟩))
      (AnimState.current ⟨0, ⟨⟨0, 0⟩, 1⟩, ⟨⟨0, 0⟩, 2⟩, 160⟩) = false := by
  norm_num [ZoomImage.mouse_down, ZoomImage.drag_start, ZoomImage.draw_transform,
    AnimState.current, cubic_out, trans_approx_eq, Vec2.hypot2, EPSILON, Vec2.sub_def,
    Vec2.add_def]

/-- C7 (amended): a pointerDown while Animating cancels the animation and
enters Dragging anchored at the pointer with zero delta, and the drag starts
from the committed transform (the animation's target): the effective
transform immediately afterwards equals the committed transform, not the
cancelled animation's interpolated transform. -/
theorem mouse_down_while_animating (s : ZoomImage) (a : AnimState) (p : Point)
    (h : s.mode = .anim a) :
    (s.mouse_down p).mode = .drag ⟨p, ⟨0, 0⟩⟩ ∧ (s.mouse_down p).draw_transform = s.trans := by
  obtain ⟨tr, m, fr⟩ := s
  replace h : m = Mode.anim a := h
  subst h
  refine ⟨rfl, ?_⟩
  show (⟨tr.translation + ⟨0, 0⟩, tr.scale⟩ : TranslateScale) = tr
  simp [Vec2.add_def]

/-- C7 witness: pointerDown at (7,9) during a scale 1→2 animation. -/
theorem mouse_down_while_animating_witness :
    (ZoomImage.mouse_down ⟨⟨⟨0, 0⟩, 2⟩, .anim ⟨0, ⟨⟨0, 0⟩, 1⟩, ⟨⟨0, 0⟩, 2⟩, 160⟩, false⟩
        ⟨7, 9⟩).mode = .drag ⟨⟨7, 9⟩, ⟨0, 0⟩⟩ ∧
    (ZoomImage.mouse_down ⟨⟨⟨0, 0⟩, 2⟩, .anim ⟨0, ⟨⟨0, 0⟩, 1⟩, ⟨⟨0, 0⟩, 2⟩, 160⟩, false⟩
        ⟨7, 9⟩).draw_transform = ⟨⟨0, 0⟩, 2⟩ :=
  mouse_down_while_animating ⟨⟨⟨0, 0⟩, 2⟩, .anim ⟨0, ⟨⟨0, 0⟩, 1⟩, ⟨⟨0, 0⟩, 2⟩, 160⟩, false⟩
    ⟨0, ⟨⟨0, 0⟩, 1⟩, ⟨⟨0, 0⟩, 2⟩, 160⟩ ⟨7, 9⟩ rfl

/-- C8: one `update(elapsedMs)` call on an animation with nonnegative elapsed
time, positive duration and in-range progress never decreases the progress,
never pushes it above 1, and follows `progress = min(1, progress +
elapsed/duration)` — hence progress is monotone and bounded along every
sequence of calls. -/
theorem anim_update_monotone_bounded (a : AnimState) (time : ℚ)
    (ht : 0 ≤ time) (hlen : 0 < a.len) (hprev : a.t ≤ 1) :
    a.t ≤ (a.update time).t ∧ (a.update time).t ≤ 1 ∧
      (a.update time).t = min (a.t + time / a.len) 1 := by
  refine ⟨?_, min_le_right _ _, rfl⟩
  exact le_min (le_add_of_nonneg_right (div_nonneg ht hlen.le)) hprev

/-- C8 witness: progress 1/2, duration 160 ms, elapsed 40 ms. -/
theorem anim_update_monotone_bounded_witness :
    (⟨1/2, ⟨⟨0,0⟩,1⟩, ⟨⟨0,0⟩,2⟩, 160⟩ : AnimState).t ≤
      ((⟨1/2, ⟨⟨0,0⟩,1⟩, ⟨⟨0,0⟩,2⟩, 160⟩ : AnimState).update 40).t ∧
    ((⟨1/2, ⟨⟨0,0⟩,1⟩, ⟨⟨0,0⟩,2⟩, 160⟩ : AnimState).update 40).t ≤ 1 ∧
    ((⟨1/2, ⟨⟨0,0⟩,1⟩, ⟨⟨0,0⟩,2⟩, 160⟩ : AnimState).update 40).t =
      min ((⟨1/2, ⟨⟨0,0⟩,1⟩, ⟨⟨0,0⟩,2⟩, 160⟩ : AnimState).t + 40 / (160:ℚ)) 1 :=
  anim_update_monotone_bounded ⟨1/2, ⟨⟨0,0⟩,1⟩, ⟨⟨0,0⟩,2⟩, 160⟩ 40 (by norm_num) (by norm_num)
    (by norm_num)

/-- C9: `zoom_to` with a non-positive scale fails (the modelled panic)
before producing any state, and with a positive scale it always succeeds.
(Non-finite `f64` inputs have no counterpart in the exact-rational model.) -/
theorem zoom_to_guard (s : ZoomImage) (i w : Size) (sc : ℚ) (o : Point) :
    (sc ≤ 0 → s.zoom_to i w sc o = none) ∧
    (0 < sc → ∃ s', s.zoom_to i w sc o = some s') := by
  constructor
  · intro h
    simp [ZoomImage.zoom_to, not_lt.mpr h]
  · intro h
    unfold ZoomImage.zoom_to
    rw [if_neg (not_not_intro h)]
    exact ⟨_, rfl⟩

/-- C9 witness: a zoom to scale -1 is rejected. -/
theorem zoom_to_guard_witness :
    ((-1:ℚ) ≤ 0 →
      ZoomImage.zoom_to ⟨⟨⟨0,0⟩,1⟩, .normal, false⟩ ⟨100,100⟩ ⟨50,50⟩ (-1) ⟨0,0⟩ = none) ∧
    ((0:ℚ) < -1 →
      ∃ s', ZoomImage.zoom_to ⟨⟨⟨0,0⟩,1⟩, .normal, false⟩ ⟨100,100⟩ ⟨50,50⟩ (-1) ⟨0,0⟩ = some s') :=
  zoom_to_guard ⟨⟨⟨0,0⟩,1⟩, .normal, false⟩ ⟨100,100⟩ ⟨50,50⟩ (-1) ⟨0,0⟩

/-- C10 counterexample: an engine Animating towards scale 1 with the
committed transform equal to the target receives a zoom to `1 + 1e-9`; the
change is absorbed by the tolerance check, so the mode (and the animation)
stay as they were while the committed transform moves to scale `1 + 1e-9` —
no longer exactly equal to the animation's `to`. -/
theorem anim_invariant_broken_cex :
    (⟨⟨⟨0, 0⟩, 1⟩, .anim ⟨1/2, ⟨⟨0, 0⟩, 1/2⟩, ⟨⟨0, 0⟩, 1⟩, 160⟩, false⟩ : ZoomImage).trans =
      (⟨1/2, ⟨⟨0, 0⟩, 1/2⟩, ⟨⟨0, 0⟩, 1⟩, 160⟩ : AnimState).to' ∧
    ZoomImage.zoom_to ⟨⟨⟨0, 0⟩, 1⟩, .anim ⟨1/2, ⟨⟨0, 0⟩, 1/2⟩, ⟨⟨0, 0⟩, 1⟩, 160⟩, false⟩
        ⟨100, 100⟩ ⟨100, 100⟩ (1 + 1/1000000000) ⟨0, 0⟩ =
      some ⟨⟨⟨0, 0⟩, 1 + 1/1000000000⟩,
            .anim ⟨1/2, ⟨⟨0, 0⟩, 1/2⟩, ⟨⟨0, 0⟩, 1⟩, 160⟩, false⟩ ∧
    (⟨⟨0, 0⟩, 1 + 1/1000000000⟩ : TranslateScale) ≠
      (⟨1/2, ⟨⟨0, 0⟩, 1/2⟩, ⟨⟨0, 0⟩, 1⟩, 160⟩ : AnimState).to' := by
  refine ⟨rfl, ?_, ?_⟩
  · norm_num [ZoomImage.zoom_to, TranslateScale.inverse, TranslateScale.mulPoint,
      Point.to_vec2, Vec2.smul, Vec2.sub_def, constrain_transform, constrain_scale,
      constrain_offset, trans_approx_eq, Vec2.hypot2, EPSILON, MIN_SCALE, MAX_SCALE]
    intro h
    rw [abs_of_pos (by norm_num)] at h
    norm_num at h
  · norm_num [TranslateScale.mk.injEq]

/-- C10 (amended): every operation that creates an animation sets the
committed transform to the constrained target and passes that same value
as the animation's `to`, and animation ticks modify neither the committed
transform nor the animation's target; the committed transform therefore
equals `to` at creation, though a tolerance-absorbed zoom while Animating
can later move it (within tolerance) without retargeting. -/
theorem anim_target_set_at_creation (s s' : ZoomImage) (i w : Size) (sc : ℚ) (o : Point)
    (time : ℚ) :
    (s.zoom_to i w sc o = some s' → trans_approx_eq s'.trans s.trans = false →
       ∀ a', s'.mode = .anim a' → s'.trans = a'.to') ∧
    (∀ d, s.mode = .drag d →
       ∀ a', (s.drag_stop i w).1.mode = .anim a' → (s.drag_stop i w).1.trans = a'.to') ∧
    ((s.anim_frame time).trans = s.trans ∧
       ∀ a a', s.mode = .anim a → (s.anim_frame time).mode = .anim a' → a'.to' = a.to') := by
  obtain ⟨tr, m, fr⟩ := s
  refine ⟨?_, ?_, ?_, ?_⟩
  · intro hsome hmoved a' hmode'
    unfold ZoomImage.zoom_to at hsome
    split at hsome
    · exact absurd hsome (by simp)
    · simp only [Option.some.injEq] at hsome
      split at hsome
      · subst hsome
        simp only at hmoved
        simp_all
      · split at hsome <;> subst hsome
        · simp only [Mode.anim.injEq] at hmode'
          rw [← hmode']
          exact (AnimState.new_to' _ _ _).symm
        · simp only [Mode.anim.injEq] at hmode'
          rw [← hmode']
          exact (AnimState.new_to' _ _ _).symm
        · simp at hmode'
  · intro d hmode a' hmode'
    replace hmode : m = Mode.drag d := hmode
    subst hmode
    by_cases hc :
        trans_approx_eq
          (constrain_transform i w ⟨tr.translation + d.diff, tr.scale⟩)
          ⟨tr.translation + d.diff, tr.scale⟩ = true
    · simp [ZoomImage.drag_stop, hc] at hmode'
    · simp only [ZoomImage.drag_stop, hc, Bool.false_eq_true, if_false] at hmode' ⊢
      simp only [Mode.anim.injEq] at hmode'
      rw [← hmode']
      exact (AnimState.new_to' _ _ _).symm
  · unfold ZoomImage.anim_frame
    cases m <;> simp <;> split_ifs <;> rfl
  · intro a a' hma hmode'
    replace hma : m = Mode.anim a := hma
    subst hma
    simp only [ZoomImage.anim_frame] at hmode'
    split at hmode'
    · exact absurd hmode' (by simp)
    · simp only [Mode.anim.injEq] at hmode'
      rw [← hmode']
      rfl

/-- C10 witness: an Idle engine, zoom to scale 2, tick of 16 ms. -/
theorem anim_target_set_at_creation_witness :
    (ZoomImage.zoom_to ⟨⟨⟨0, 0⟩, 1⟩, .normal, false⟩ ⟨100, 100⟩ ⟨100, 100⟩ 2 ⟨0, 0⟩ =
         some ⟨⟨⟨0, 0⟩, 1⟩, .normal, false⟩ →
       trans_approx_eq (⟨⟨⟨0, 0⟩, 1⟩, .normal, false⟩ : ZoomImage).trans
         (⟨⟨⟨0, 0⟩, 1⟩, .normal, false⟩ : ZoomImage).trans = false →
       ∀ a', (⟨⟨⟨0, 0⟩, 1⟩, .normal, false⟩ : ZoomImage).mode = .anim a' →
         (⟨⟨⟨0, 0⟩, 1⟩, .normal, false⟩ : ZoomImage).trans = a'.to') ∧
    (∀ d, (⟨⟨⟨0, 0⟩, 1⟩, .normal, false⟩ : ZoomImage).mode = .drag d →
       ∀ a',
         ((⟨⟨⟨0, 0⟩, 1⟩, .normal, false⟩ : ZoomImage).drag_stop ⟨100, 100⟩ ⟨100, 100⟩).1.mode =
           .anim a' →
         ((⟨⟨⟨0, 0⟩, 1⟩, .normal, false⟩ : ZoomImage).drag_stop ⟨100, 100⟩ ⟨100, 100⟩).1.trans =
           a'.to') ∧
    (((⟨⟨⟨0, 0⟩, 1⟩, .normal, false⟩ : ZoomImage).anim_frame 16).trans =
       (⟨⟨⟨0, 0⟩, 1⟩, .normal, false⟩ : ZoomImage).trans ∧
     ∀ a a', (⟨⟨⟨0, 0⟩, 1⟩, .normal, false⟩ : ZoomImage).mode = .anim a →
       ((⟨⟨⟨0, 0⟩, 1⟩, .normal, false⟩ : ZoomImage).anim_frame 16).mode = .anim a' →
       a'.to' = a.to') :=
  anim_target_set_at_creation ⟨⟨⟨0, 0⟩, 1⟩, .normal, false⟩ ⟨⟨⟨0, 0⟩, 1⟩, .normal, false⟩
    ⟨100, 100⟩ ⟨100, 100⟩ 2 ⟨0, 0⟩ 16

end ImageViewer
